import Mathlib

/-
Verification of the safe-control-gym core: a shallow embedding of the
CVaR-based hyperparameter-optimization loop (safe_control_gym/hyperparameters/hpo.py)
and of the Gaussian-process utility layer (safe_control_gym/controllers/mpc/gp_utils.py),
together with theorems settling the specified behavioural properties.

Numeric values are modelled by exact rationals (for the HPO loop, which only
uses arithmetic, comparison and sorting) and by real numbers (for the kernel
functions, which use exp and sqrt).  Python while-loops that are not
structurally recursive are given an explicit fuel argument.
-/

namespace SafeControlGym

/-! ## Configuration record for the HPO class (hpo.py, `self.hpo_config`) -/

/-- The slice of `hpo_config` consumed by `HPO.objective`, `HPO._compute_cvar`
and `HPO._perturb_hps`. -/
structure HPOConfig where
  objective : List String
  direction : List String
  alpha : Rat
  repetitions : Nat
  warm_trials : Nat
  dynamical_runs : Bool
  approximation_threshold : Rat

/-- Python `int()` applied to a rational: truncation toward zero. -/
def pyInt (q : Rat) : Int :=
  if q < 0 then Int.ceil q else Int.floor q

/-- `numpy.ndarray.mean` on a 1-D batch: sum divided by length. -/
def listMean (l : List Rat) : Rat :=
  l.sum / (l.length : Rat)

/-! ## HPO._compute_cvar (hpo.py lines 306-322)

    sorted_returns = np.sort(returns)
    n = len(sorted_returns)
    VaR_idx = int(alpha * n)
    if VaR_idx == 0: VaR_idx = 1
    if self.hpo_config.direction[0] == "minimize":
        CVaR = sorted_returns[-VaR_idx:].mean()
    else:
        CVaR = sorted_returns[:VaR_idx].mean()

`np.sort` sorts ascending; the Python slice `l[-k:]` is the final `k`
elements (all of `l` when `k` exceeds the length) and `l[:k]` the first `k`.
The branch consults only entry `0` of the configured direction list. -/
def cvar_core (direction0 : String) (returns : List Rat) (alpha : Rat) : Rat :=
  let sorted_returns := List.insertionSort (fun a b => a ≤ b) returns
  let n : Nat := sorted_returns.length
  let VaR_idx : Int := pyInt (alpha * (n : Rat))
  let VaR_idx := if VaR_idx = 0 then 1 else VaR_idx
  if direction0 = "minimize" then
    listMean (sorted_returns.drop (n - VaR_idx.toNat))
  else
    listMean (sorted_returns.take VaR_idx.toNat)

/-- `HPO._compute_cvar`: the method reads `self.hpo_config.direction[0]`. -/
def compute_cvar (cfg : HPOConfig) (returns : List Rat) (alpha : Rat) : Rat :=
  cvar_core (cfg.direction.headD "") returns alpha

/-- The SUMMARIZE step of `HPO.objective` (hpo.py lines 170-171): both the
return batch and the efficiency batch are summarized by `_compute_cvar`
at risk level `self.hpo_config.alpha`. -/
def summarize_cvars (cfg : HPOConfig) (returns efficiencies : List Rat) : Rat × Rat :=
  (compute_cvar cfg returns cfg.alpha, compute_cvar cfg efficiencies cfg.alpha)

/-! ## The escalation (dynamical-runs) check of HPO.objective (hpo.py lines 173-182) -/

/-- The comparison `abs(Gs_rew - Gss_rew) > threshold` where `Gs_rew` is
`np.inf` on the first summarize pass (modelled by `none`); the absolute
difference of `np.inf` and a finite float is `np.inf`, which exceeds every
finite threshold. -/
def abs_diff_exceeds : Option Rat → Rat → Rat → Bool
  | none, _, _ => true
  | some g, gss, thresh => decide (|g - gss| > thresh)

/-- The decision taken at the end of one summarize pass of `HPO.objective`:

    if self.hpo_config.warm_trials < len(self.study.trials) and self.hpo_config.dynamical_runs:
        if Gss_rew > self.study.best_value or first_iteration == False:
            if abs(Gs_rew - Gss_rew) > self.hpo_config.approximation_threshold:
                increase_runs = True
            else:
                increase_runs = False

`increase_runs` was reset to `False` at the top of the loop, so every path
not setting it leaves it `False`. -/
def increase_runs_decision (cfg : HPOConfig) (numTrials : Nat) (first_iteration : Bool)
    (Gs_rew : Option Rat) (Gss_rew best_value : Rat) : Bool :=
  if cfg.warm_trials < numTrials ∧ cfg.dynamical_runs = true then
    if Gss_rew > best_value ∨ first_iteration = false then
      abs_diff_exceeds Gs_rew Gss_rew cfg.approximation_threshold
    else
      false
  else
    false

/-- The per-trial mutable state carried between summarize passes of
`HPO.objective`: the accumulated return and efficiency pools, the
`first_iteration` flag and the previous pass's CVaR values
(`none` models the `np.inf` initialization). -/
structure PassState where
  returns : List Rat
  efficiencies : List Rat
  first_iteration : Bool
  Gs_rew : Option Rat
  Gs_eff : Option Rat

/-- Result of one summarize pass. -/
structure PassResult where
  state : PassState
  Gss_rew : Rat
  Gss_eff : Rat
  increase_runs : Bool

/-- One iteration of the `while increase_runs` loop of `HPO.objective`
after the repetition batch has produced `batch_returns`/`batch_efficiencies`:
the batch is appended to the accumulated pools, the CVaRs are recomputed
over the full pools, and the escalation decision is taken.  On escalation
`first_iteration` becomes `False` and `Gs_rew, Gs_eff = Gss_rew, Gss_eff`. -/
def objective_pass (cfg : HPOConfig) (numTrials : Nat) (best_value : Rat)
    (st : PassState) (batch_returns batch_efficiencies : List Rat) : PassResult :=
  let returns := st.returns ++ batch_returns
  let efficiencies := st.efficiencies ++ batch_efficiencies
  let Gss_rew := compute_cvar cfg returns cfg.alpha
  let Gss_eff := compute_cvar cfg efficiencies cfg.alpha
  let inc := increase_runs_decision cfg numTrials st.first_iteration st.Gs_rew Gss_rew best_value
  { state :=
      { returns := returns
        efficiencies := efficiencies
        first_iteration := if inc then false else st.first_iteration
        Gs_rew := if inc then some Gss_rew else st.Gs_rew
        Gs_eff := if inc then some Gss_eff else st.Gs_eff }
    Gss_rew := Gss_rew
    Gss_eff := Gss_eff
    increase_runs := inc }

/-! ## The repetition (REPEAT) loop of HPO.objective (hpo.py lines 98-168) -/

/-- The observable outcome of one repetition of the inner
`for i in range(self.hpo_config.repetitions)` loop, at the granularity of
which call raises:
* `ok ret eff`: agent constructed, learned and ran, scoring the repetition;
* `constructRaise`: `make(...)` raises inside the first try block — the
  exception is logged and swallowed, but `self.agent` is left unbound
  (it is deleted at the end of every completed repetition), so the
  subsequent `self.agent._learn()` raises `AttributeError`, which is caught
  by the second except block whose own first statement `self.agent.close()`
  raises `AttributeError` again — uncaught, so it propagates out of
  `objective` before anything is appended to the score lists;
* `learnRaise`: `self.agent._learn()` raises — the except block appends
  `0.0` to both score lists and `break`s the repetition loop;
* `runRaise`: `self.agent._run()` raises — this call is outside every try
  block, so the exception propagates out of `objective` uncaught. -/
inductive RepResult where
  | ok (ret eff : Rat)
  | constructRaise
  | learnRaise
  | runRaise
deriving DecidableEq

/-- The repetition loop of `HPO.objective`, folded over the outcome of each
scheduled repetition; `Except.error` models an exception propagating out of
`objective`. -/
def objective_repeat : List RepResult → List Rat → List Rat →
    Except String (List Rat × List Rat)
  | [], returns, efficiencies => Except.ok (returns, efficiencies)
  | RepResult.ok ret eff :: rest, returns, efficiencies =>
      objective_repeat rest (returns ++ [ret]) (efficiencies ++ [eff])
  | RepResult.learnRaise :: _, returns, efficiencies =>
      Except.ok (returns ++ [0], efficiencies ++ [0])
  | RepResult.constructRaise :: _, _, _ =>
      Except.error "AttributeError raised by self.agent.close() in the except block"
  | RepResult.runRaise :: _, _, _ =>
      Except.error "exception raised by self.agent._run() outside any try block"

/-! ## The training loop of GaussianProcess.train (gp_utils.py lines 946-977)

    last_loss = 99999999
    loss = torch.tensor(0)
    i = 0
    while i < n_train and torch.abs(loss - last_loss) > 1e-2:
        ...
        loss = -mll(output, train_y)
        ...
        i += 1

`last_loss` is initialized once and never assigned inside the loop body. -/

/-- The `while` loop of `GaussianProcess.train`, abstracting the training
loss computed during iteration `i` as `lossAt i`.  `last_loss` is threaded
unchanged through the recursion, exactly as in the source, where it is never
updated after its initialization to `99999999`.  The `fuel` argument is the
remaining iteration budget `n_train - i`; the returned value is the iteration
counter `i` at loop exit. -/
def gp_train_loop (lossAt : Nat → Rat) (last_loss : Rat) : Nat → Nat → Rat → Nat
  | 0, i, _ => i
  | fuel + 1, i, loss =>
      if |loss - last_loss| > 1 / 100 then
        gp_train_loop lossAt last_loss fuel (i + 1) (lossAt i)
      else
        i

/-- Number of iterations executed by `GaussianProcess.train` when run with
budget `n_train`: the loop starts from `i = 0`, `loss = 0`,
`last_loss = 99999999`. -/
def gp_train_iterations (lossAt : Nat → Rat) (n_train : Nat) : Nat :=
  gp_train_loop lossAt 99999999 n_train 0 0

/-! ## The float branch of HPO._perturb_hps (hpo.py lines 419-458)

    interval = sorted(hps_dict['float'][key])
    dx = (max(interval) - min(interval)) / self.hpo_config.divisor / 10
    for i in range(self.hpo_config.side_perturb_num+1):
        perturbation = hp[key] + (i)*dx
        while perturbation > max(interval):
            dx = dx/10
            perturbation = hp[key] + (i)*dx
        <emit perturbation>
    for i in range(self.hpo_config.side_perturb_num):
        perturbation = hp[key] - (i+1)*dx
        while perturbation < min(interval):
            dx = dx/10
            perturbation = hp[key] - (i+1)*dx
        <emit perturbation>

for a scalar float hyperparameter `hp[key]`.  The mutated `dx` persists
across loop iterations and from the right-side loop into the left-side loop.
The inner `while` loops are modelled with fuel counting the number of
remaining shrink steps. -/

/-- The right-side shrink loop: starting from candidate `hp + i*dx`, divide
`dx` by ten while the candidate exceeds `maxI`; returns the emitted
perturbation together with the final `dx`, or `none` when the fuel is
exhausted with the candidate still out of range. -/
def shrink_step_right (hp : Rat) (i : Nat) (maxI : Rat) : Nat → Rat → Option (Rat × Rat)
  | 0, dx => if hp + (i : Rat) * dx > maxI then none else some (hp + (i : Rat) * dx, dx)
  | fuel + 1, dx =>
      if hp + (i : Rat) * dx > maxI then shrink_step_right hp i maxI fuel (dx / 10)
      else some (hp + (i : Rat) * dx, dx)

/-- The left-side shrink loop for candidate `hp - (i+1)*dx` against the lower
bound `minI`. -/
def shrink_step_left (hp : Rat) (i : Nat) (minI : Rat) : Nat → Rat → Option (Rat × Rat)
  | 0, dx =>
      if hp - ((i : Rat) + 1) * dx < minI then none
      else some (hp - ((i : Rat) + 1) * dx, dx)
  | fuel + 1, dx =>
      if hp - ((i : Rat) + 1) * dx < minI then shrink_step_left hp i minI fuel (dx / 10)
      else some (hp - ((i : Rat) + 1) * dx, dx)

/-- The right-side emission loop, `count` iterations starting at index `i`,
threading `dx`. -/
def perturb_right_from (hp maxI : Rat) (fuel : Nat) : Nat → Nat → Rat → Option (List Rat × Rat)
  | _, 0, dx => some ([], dx)
  | i, count + 1, dx =>
      match shrink_step_right hp i maxI fuel dx with
      | none => none
      | some (p, dx2) =>
          match perturb_right_from hp maxI fuel (i + 1) count dx2 with
          | none => none
          | some (ps, dx3) => some (p :: ps, dx3)

/-- The left-side emission loop, `count` iterations starting at index `i`,
threading `dx`. -/
def perturb_left_from (hp minI : Rat) (fuel : Nat) : Nat → Nat → Rat → Option (List Rat × Rat)
  | _, 0, dx => some ([], dx)
  | i, count + 1, dx =>
      match shrink_step_left hp i minI fuel dx with
      | none => none
      | some (p, dx2) =>
          match perturb_left_from hp minI fuel (i + 1) count dx2 with
          | none => none
          | some (ps, dx3) => some (p :: ps, dx3)

/-- The full float-branch perturbation generator of `HPO._perturb_hps` for a
scalar float hyperparameter: `side_perturb_num + 1` emissions on the right
(including the chosen value itself at `i = 0`) followed by
`side_perturb_num` emissions on the left, in emission order. -/
def perturb_hps_float (hp minI maxI divisor : Rat) (side_perturb_num fuel : Nat) :
    Option (List Rat) :=
  let dx := (maxI - minI) / divisor / 10
  match perturb_right_from hp maxI fuel 0 (side_perturb_num + 1) dx with
  | none => none
  | some (rights, dx2) =>
      match perturb_left_from hp minI fuel 0 side_perturb_num dx2 with
      | none => none
      | some (lefts, _) => some (rights ++ lefts)

/-- Modelled from the spec: the claim's step-shrinking rule for the numeric
perturbation generator says the step is "recursively halved" whenever a
candidate falls outside the admissible interval.  This right-side variant
replaces the source's division by ten with division by two; it exists only
to compare the claim's wording with the source behaviour. -/
def spec_shrink_right_halved (hp : Rat) (i : Nat) (maxI : Rat) : Nat → Rat → Option (Rat × Rat)
  | 0, dx => if hp + (i : Rat) * dx > maxI then none else some (hp + (i : Rat) * dx, dx)
  | fuel + 1, dx =>
      if hp + (i : Rat) * dx > maxI then spec_shrink_right_halved hp i maxI fuel (dx / 2)
      else some (hp + (i : Rat) * dx, dx)

/-- Modelled from the spec: left-side halving variant of `shrink_step_left`. -/
def spec_shrink_left_halved (hp : Rat) (i : Nat) (minI : Rat) : Nat → Rat → Option (Rat × Rat)
  | 0, dx =>
      if hp - ((i : Rat) + 1) * dx < minI then none
      else some (hp - ((i : Rat) + 1) * dx, dx)
  | fuel + 1, dx =>
      if hp - ((i : Rat) + 1) * dx < minI then spec_shrink_left_halved hp i minI fuel (dx / 2)
      else some (hp - ((i : Rat) + 1) * dx, dx)

/-- Modelled from the spec: right-side emission loop under the halving rule. -/
def spec_perturb_right_halved (hp maxI : Rat) (fuel : Nat) :
    Nat → Nat → Rat → Option (List Rat × Rat)
  | _, 0, dx => some ([], dx)
  | i, count + 1, dx =>
      match spec_shrink_right_halved hp i maxI fuel dx with
      | none => none
      | some (p, dx2) =>
          match spec_perturb_right_halved hp maxI fuel (i + 1) count dx2 with
          | none => none
          | some (ps, dx3) => some (p :: ps, dx3)

/-- Modelled from the spec: left-side emission loop under the halving rule. -/
def spec_perturb_left_halved (hp minI : Rat) (fuel : Nat) :
    Nat → Nat → Rat → Option (List Rat × Rat)
  | _, 0, dx => some ([], dx)
  | i, count + 1, dx =>
      match spec_shrink_left_halved hp i minI fuel dx with
      | none => none
      | some (p, dx2) =>
          match spec_perturb_left_halved hp minI fuel (i + 1) count dx2 with
          | none => none
          | some (ps, dx3) => some (p :: ps, dx3)

/-- Modelled from the spec: the full numeric perturbation generator as the
claim words it, with the step recursively halved instead of divided by ten. -/
def spec_perturb_hps_float_halved (hp minI maxI divisor : Rat) (side_perturb_num fuel : Nat) :
    Option (List Rat) :=
  let dx := (maxI - minI) / divisor / 10
  match spec_perturb_right_halved hp maxI fuel 0 (side_perturb_num + 1) dx with
  | none => none
  | some (rights, dx2) =>
      match spec_perturb_left_halved hp minI fuel 0 side_perturb_num dx2 with
      | none => none
      | some (lefts, _) => some (rights ++ lefts)

/-! ## GaussianProcessCollection.predict (gp_utils.py lines 376-410, non-parallel path)

    means_list, cov_list = [], []
    for gp in self.gp_list:
        mean, cov = gp.predict(x, ...)
        means_list.append(mean)
        cov_list.append(cov)
    means = torch.tensor(means_list)
    cov = torch.diag(torch.cat(cov_list).squeeze())

For a single query point each per-dimension `gp.predict` yields a scalar
mean and a scalar (1x1) variance; `torch.cat(...).squeeze()` is then the
k-vector of per-dimension variances and `torch.diag` builds the k x k
diagonal matrix from it.  Each per-dimension GP is abstracted as a function
from the query to its (mean, variance) pair; `gp_list` order is
`target_mask` order by construction (`GaussianProcessCollection.train`). -/

/-- `GaussianProcessCollection.predict` on one query point. -/
def collection_predict {α : Type} (gp_list : List (α → Rat × Rat)) (x : α) :
    List Rat × Matrix (Fin gp_list.length) (Fin gp_list.length) Rat :=
  (gp_list.map (fun gp => (gp x).1),
   Matrix.diagonal (fun i => ((gp_list.get i) x).2))

/-! ## GaussianProcessCollection.init_with_hyperparam (gp_utils.py lines 251-283)

    assert self.parallel == False, ValueError('Parallel GP not supported yet.')
    ...
    for gp_ind, gp in enumerate(self.gp_list):
        gp.init_with_hyperparam(...)
        gp_K_plus_noise_list.append(gp.model.K_plus_noise.detach())
        gp_K_plus_noise_inv_list.append(gp.model.K_plus_noise_inv.detach())
    self.K_plus_noise = torch.stack(gp_K_plus_noise_list)
    self.K_plus_noise_inv = torch.stack(gp_K_plus_noise_inv_list)

The assert is the first statement, so in parallel (batched) mode the call
raises before any state is restored.  The per-dimension load results are
abstracted as the pairs `(K_plus_noise, K_plus_noise_inv)` each
`gp.init_with_hyperparam` would produce. -/

/-- `GaussianProcessCollection.init_with_hyperparam`: hard error in parallel
mode, otherwise the stacked cache pair. -/
def init_with_hyperparam {β : Type} (parallel : Bool) (gp_loads : List (β × β)) :
    Except String (List β × List β) :=
  if parallel then Except.error "Parallel GP not supported yet."
  else Except.ok (gp_loads.map Prod.fst, gp_loads.map Prod.snd)

/-! ## Kernel functions (gp_utils.py lines 19-60)

    def covSEard(x, z, ell, sf2):
        dist = ca.sum1((x - z)**2 / ell**2)
        return sf2 * ca.SX.exp(-.5 * dist)

    def covMatern52ard(x, z, ell, sf2):
        dist = ca.sum1((x - z)**2 / ell**2)
        r_over_l = ca.sqrt(dist)
        return sf2 * (1 + ca.sqrt(5) * r_over_l + 5 / 3 * r_over_l ** 2) * ca.exp(- ca.sqrt(5) * r_over_l)

Vectors of equal dimension `d` are modelled as functions `Fin d → ℝ`; the
kernels use exp and sqrt and are therefore modelled over the real numbers. -/

noncomputable section RealGP

/-- GP squared exponential (SE/RBF) kernel with ARD length scales. -/
def covSEard (d : Nat) (x z ell : Fin d → ℝ) (sf2 : ℝ) : ℝ :=
  let dist := ∑ i, (x i - z i) ^ 2 / ell i ^ 2
  sf2 * Real.exp (-(1 / 2) * dist)

/-- Matern kernel with nu equal to 5/2 and ARD length scales. -/
def covMatern52ard (d : Nat) (x z ell : Fin d → ℝ) (sf2 : ℝ) : ℝ :=
  let dist := ∑ i, (x i - z i) ^ 2 / ell i ^ 2
  let r_over_l := Real.sqrt dist
  sf2 * (1 + Real.sqrt 5 * r_over_l + 5 / 3 * r_over_l ^ 2) *
    Real.exp (-Real.sqrt 5 * r_over_l)

/-- The kernel configured for a `GaussianProcess` (`kernel='RBF'` or
`kernel='Matern'` in gp_utils.py). -/
inductive KernelType where
  | RBF
  | Matern

/-- Kernel dispatch as in `GaussianProcess.make_casadi_prediction_func`. -/
def kernelFn (kt : KernelType) (d : Nat) (x z ell : Fin d → ℝ) (sf2 : ℝ) : ℝ :=
  match kt with
  | KernelType.RBF => covSEard d x z ell sf2
  | KernelType.Matern => covMatern52ard d x z ell sf2

/-- The training-set kernel matrix `K(X, X)` with the trained
hyperparameters. -/
def kernelMatrix (kt : KernelType) (n d : Nat) (X : Fin n → Fin d → ℝ)
    (ell : Fin d → ℝ) (sf2 : ℝ) : Matrix (Fin n) (Fin n) ℝ :=
  Matrix.of fun i j => kernelFn kt d (X i) (X j) ell sf2

/-- `GaussianProcess._compute_GP_covariances` (gp_utils.py lines 864-874):
the cached matrix `K(X, X) + sigma * I`; its inverse is the cached
`K_plus_noise_inv`. -/
def K_plus_noise (kt : KernelType) (n d : Nat) (X : Fin n → Fin d → ℝ)
    (ell : Fin d → ℝ) (sf2 sigma : ℝ) : Matrix (Fin n) (Fin n) ℝ :=
  kernelMatrix kt n d X ell sf2 + sigma • (1 : Matrix (Fin n) (Fin n) ℝ)

/-- `GaussianProcess.make_casadi_prediction_func` (gp_utils.py lines
1034-1059): the exported closed-form prediction function

    pred(z) = K_z_ztrain(z) @ K_plus_noise_inv @ train_targets

with `K_z_ztrain(z)` the row vector of kernel values between the query and
each training input, evaluated with the trained length scales and output
scale.  The cached inverse is abstracted as the matrix `M`
(the source passes `self.model.K_plus_noise_inv`). -/
def make_casadi_prediction_func (kt : KernelType) (n d : Nat)
    (train_inputs : Fin n → Fin d → ℝ) (train_targets : Fin n → ℝ)
    (ell : Fin d → ℝ) (sf2 : ℝ) (M : Matrix (Fin n) (Fin n) ℝ) :
    (Fin d → ℝ) → ℝ :=
  fun z =>
    Matrix.dotProduct
      (Matrix.vecMul (fun i => kernelFn kt d z (train_inputs i) ell sf2) M)
      train_targets

/-- The cached-inverse path for the posterior mean of the zero-mean GP at
the training inputs: `K(X, X) @ K_plus_noise_inv @ y`, the vector of
posterior means the cache reproduces at each training point. -/
def cached_posterior_mean_at_train (kt : KernelType) (n d : Nat)
    (X : Fin n → Fin d → ℝ) (y : Fin n → ℝ) (ell : Fin d → ℝ) (sf2 : ℝ)
    (M : Matrix (Fin n) (Fin n) ℝ) : Fin n → ℝ :=
  Matrix.mulVec (kernelMatrix kt n d X ell sf2 * M) y

end RealGP

/-! ## Helper lemmas -/

theorem pyInt_eq_floor (q : Rat) (h : 0 ≤ q) : pyInt q = Int.floor q := by
  unfold pyInt
  rw [if_neg (not_lt.mpr h)]

theorem if_zero_toNat_eq_max (v : Int) (h : 0 ≤ v) :
    (if v = 0 then 1 else v).toNat = max 1 v.toNat := by
  rcases eq_or_lt_of_le h with h0 | hpos
  · rw [if_pos h0.symm]
    omega
  · rw [if_neg (by omega)]
    omega

theorem sorted_take_le_drop (l : List Rat) (hs : List.Sorted (fun a b => a ≤ b) l) (m : Nat) :
    ∀ a ∈ l.take m, ∀ b ∈ l.drop m, a ≤ b := by
  have hp : List.Pairwise (fun a b => a ≤ b) (l.take m ++ l.drop m) := by
    rw [List.take_append_drop]
    exact hs
  exact (List.pairwise_append.mp hp).2.2

/-! ## Example configurations used in concrete instances -/

/-- A single-objective minimizing configuration with risk level 1/5. -/
def cfgMinExample : HPOConfig :=
  ⟨["performance"], ["minimize"], 1 / 5, 5, 0, true, 1 / 2⟩

/-- A single-objective maximizing configuration with risk level 1/5. -/
def cfgMaxExample : HPOConfig :=
  ⟨["performance"], ["maximize"], 1 / 5, 5, 0, true, 1 / 2⟩

/-! ## Claim theorems -/

/-- Claim C1: for every 1-D batch of accumulated values and risk level
alpha (a risk level satisfies 0 ≤ alpha ≤ 1), `HPO._compute_cvar` sorts the
batch and takes exactly `k = max 1 (floor (alpha * n))` values — the final
`k` values of the ascending sort (the worst outcomes for a minimizing
search) when `direction[0]` is `"minimize"`, the first `k` values otherwise —
and returns their average; every element of the selected tail dominates
every unselected element and vice versa for the selected prefix.  In
particular for `returns = [1,2,3,4,5]` with `alpha = 1/5` the result is `5`
when minimizing and `1` when maximizing, and the selected slice always has
exactly `k ≥ 1` elements, never `0`. -/
theorem C1_compute_cvar (returns : List Rat) (alpha : Rat) (cfgMin cfgMax : HPOConfig)
    (hMin : cfgMin.direction.headD "" = "minimize")
    (hMax : cfgMax.direction.headD "" = "maximize")
    (hne : returns ≠ []) (h0 : 0 ≤ alpha) (h1 : alpha ≤ 1) :
    ∃ k : Nat,
      k = max 1 (pyInt (alpha * (returns.length : Rat))).toNat ∧
      1 ≤ k ∧ k ≤ returns.length ∧
      ((List.insertionSort (fun a b => a ≤ b) returns).drop (returns.length - k)).length = k ∧
      ((List.insertionSort (fun a b => a ≤ b) returns).take k).length = k ∧
      compute_cvar cfgMin returns alpha
        = listMean ((List.insertionSort (fun a b => a ≤ b) returns).drop (returns.length - k)) ∧
      compute_cvar cfgMax returns alpha
        = listMean ((List.insertionSort (fun a b => a ≤ b) returns).take k) ∧
      (∀ a ∈ (List.insertionSort (fun a b => a ≤ b) returns).take (returns.length - k),
        ∀ b ∈ (List.insertionSort (fun a b => a ≤ b) returns).drop (returns.length - k), a ≤ b) ∧
      (∀ a ∈ (List.insertionSort (fun a b => a ≤ b) returns).take k,
        ∀ b ∈ (List.insertionSort (fun a b => a ≤ b) returns).drop k, a ≤ b) ∧
      compute_cvar cfgMin [1, 2, 3, 4, 5] (1 / 5) = 5 ∧
      compute_cvar cfgMax [1, 2, 3, 4, 5] (1 / 5) = 1 := by
  have hlen : (List.insertionSort (fun a b => a ≤ b) returns).length = returns.length := by
    simp
  have hn1 : 1 ≤ returns.length := List.length_pos.mpr hne
  have hprod : (0 : Rat) ≤ alpha * (returns.length : Rat) :=
    mul_nonneg h0 (Nat.cast_nonneg _)
  have hflo : pyInt (alpha * (returns.length : Rat)) = Int.floor (alpha * (returns.length : Rat)) :=
    pyInt_eq_floor _ hprod
  have hflo_nonneg : 0 ≤ Int.floor (alpha * (returns.length : Rat)) :=
    Int.floor_nonneg.mpr hprod
  have hmul_le : alpha * (returns.length : Rat) ≤ (returns.length : Rat) := by
    have := mul_le_mul_of_nonneg_right h1 (Nat.cast_nonneg (α := Rat) returns.length)
    simpa using this
  have hflo_le : Int.floor (alpha * (returns.length : Rat)) ≤ (returns.length : Int) := by
    have := Int.floor_le_floor hmul_le
    simpa using this
  refine ⟨max 1 (pyInt (alpha * (returns.length : Rat))).toNat, rfl, le_max_left _ _, ?_, ?_, ?_, ?_, ?_, ?_, ?_, ?_, ?_⟩
  · rw [hflo]
    omega
  · rw [List.length_drop, hlen]
    rw [hflo]
    omega
  · rw [List.length_take, hlen]
    rw [hflo]
    omega
  · show cvar_core (cfgMin.direction.headD "") returns alpha = _
    rw [hMin]
    unfold cvar_core
    rw [if_pos rfl, hlen, if_zero_toNat_eq_max _ (hflo ▸ hflo_nonneg)]
  · show cvar_core (cfgMax.direction.headD "") returns alpha = _
    rw [hMax]
    unfold cvar_core
    rw [if_neg (by decide), hlen, if_zero_toNat_eq_max _ (hflo ▸ hflo_nonneg)]
  · exact sorted_take_le_drop _ (List.sorted_insertionSort _ returns) _
  · exact sorted_take_le_drop _ (List.sorted_insertionSort _ returns) _
  · show cvar_core (cfgMin.direction.headD "") [1, 2, 3, 4, 5] (1 / 5) = 5
    rw [hMin]
    norm_num [cvar_core, pyInt, listMean, List.insertionSort, List.orderedInsert,
      show (1 : Int).toNat = 1 from rfl]
  · show cvar_core (cfgMax.direction.headD "") [1, 2, 3, 4, 5] (1 / 5) = 1
    rw [hMax]
    norm_num [cvar_core, pyInt, listMean, List.insertionSort, List.orderedInsert,
      show (1 : Int).toNat = 1 from rfl]
    decide

/-- Witness for C1 at a concrete batch, risk level, and pair of
configurations. -/
theorem C1_compute_cvar_witness :
    (cfgMinExample.direction.headD "" = "minimize"
      ∧ cfgMaxExample.direction.headD "" = "maximize"
      ∧ ([10, 8, 8] : List Rat) ≠ []
      ∧ (0 : Rat) ≤ 2 / 3 ∧ (2 / 3 : Rat) ≤ 1)
    ∧ compute_cvar cfgMinExample [10, 8, 8] (2 / 3) = 9 := by
  refine ⟨⟨rfl, rfl, by simp, by norm_num, by norm_num⟩, ?_⟩
  obtain ⟨k, hk, -, -, -, -, hmin, -, -, -, -, -⟩ :=
    C1_compute_cvar [10, 8, 8] (2 / 3) cfgMinExample cfgMaxExample rfl rfl
      (by simp) (by norm_num) (by norm_num)
  rw [hmin]
  have hk2 : k = 2 := by
    rw [hk]
    norm_num [pyInt, show (2 : Int).toNat = 2 from rfl]
  rw [hk2]
  norm_num [listMean, List.insertionSort, List.orderedInsert]

/-! ## C2: the escalation (bias-guard) rule -/

/-- The concrete scenario configuration of the claim: `warm_trials = 0`,
`dynamical_runs = True`, minimizing, `approximation_threshold = 1/2`,
risk level 2/3. -/
def cfgEscalate : HPOConfig :=
  ⟨["performance"], ["minimize"], 2 / 3, 1, 0, true, 1 / 2⟩

/-- Same scenario with `approximation_threshold = 2`. -/
def cfgNoEscalate : HPOConfig :=
  ⟨["performance"], ["minimize"], 2 / 3, 1, 0, true, 2⟩

/-- The trial state at the start of the second summarize pass of the
claim's scenario: the first pass accumulated the single return `10`
(its CVaR is `10`), escalated, and recorded `Gs_rew = 10`. -/
def stSecondPass : PassState :=
  ⟨[10], [10], false, some 10, some 10⟩

theorem objective_pass_inc_some_iff (cfg : HPOConfig) (numTrials : Nat) (best_value : Rat)
    (st : PassState) (br be : List Rat)
    (hW : cfg.warm_trials < numTrials) (hD : cfg.dynamical_runs = true) (g : Rat)
    (hGs : st.Gs_rew = some g) :
    (objective_pass cfg numTrials best_value st br be).increase_runs = true ↔
      ((st.first_iteration = false ∨ compute_cvar cfg (st.returns ++ br) cfg.alpha > best_value)
        ∧ |g - compute_cvar cfg (st.returns ++ br) cfg.alpha| > cfg.approximation_threshold) := by
  show increase_runs_decision cfg numTrials st.first_iteration st.Gs_rew
      (compute_cvar cfg (st.returns ++ br) cfg.alpha) best_value = true ↔ _
  unfold increase_runs_decision
  rw [if_pos (And.intro hW hD), hGs]
  by_cases hcond : compute_cvar cfg (st.returns ++ br) cfg.alpha > best_value
    ∨ st.first_iteration = false
  · rw [if_pos hcond]
    simp only [abs_diff_exceeds, decide_eq_true_eq]
    constructor
    · intro habs
      exact ⟨hcond.symm, habs⟩
    · intro h
      exact h.2
  · rw [if_neg hcond]
    constructor
    · intro h
      exact Bool.noConfusion h
    · intro h
      exact absurd h.1.symm hcond

theorem objective_pass_inc_none_iff (cfg : HPOConfig) (numTrials : Nat) (best_value : Rat)
    (st : PassState) (br be : List Rat)
    (hW : cfg.warm_trials < numTrials) (hD : cfg.dynamical_runs = true)
    (hGs : st.Gs_rew = none) :
    (objective_pass cfg numTrials best_value st br be).increase_runs = true ↔
      (st.first_iteration = false
        ∨ compute_cvar cfg (st.returns ++ br) cfg.alpha > best_value) := by
  show increase_runs_decision cfg numTrials st.first_iteration st.Gs_rew
      (compute_cvar cfg (st.returns ++ br) cfg.alpha) best_value = true ↔ _
  unfold increase_runs_decision
  rw [if_pos (And.intro hW hD), hGs]
  by_cases hcond : compute_cvar cfg (st.returns ++ br) cfg.alpha > best_value
    ∨ st.first_iteration = false
  · rw [if_pos hcond]
    simp only [abs_diff_exceeds, true_iff]
    exact hcond.symm
  · rw [if_neg hcond]
    constructor
    · intro h
      exact Bool.noConfusion h
    · intro h
      exact absurd h.symm hcond

/-- Claim C2: once `warm_trials < len(study.trials)` holds (at least
`warm_trials` prior trials exist, the running trial included in the count)
and dynamical runs are enabled, one more REPEAT batch is escalated if and
only if (this is not the first summarize pass, OR the new return-CVaR
exceeds the best value recorded across the search — the source compares
with `>` irrespective of the optimization direction) AND the absolute
change from the previous pass's CVaR exceeds `approximation_threshold`
(on the first pass the previous CVaR is `np.inf`, whose distance to any
finite value exceeds any finite threshold, collapsing the check to the
best-value comparison).  Seeds accumulate: the pass appends the batch to
the pool and recomputes the CVaR over the full pool.  In the concrete
scenario (`warm_trials = 0`, dynamical runs on, minimizing, first pass
CVaR 10 = best so far, second pass CVaR 9) escalation occurs with
threshold 1/2 and does not occur with threshold 2. -/
theorem C2_escalation (cfg : HPOConfig) (numTrials : Nat) (best_value : Rat)
    (st : PassState) (br be : List Rat)
    (hW : cfg.warm_trials < numTrials) (hD : cfg.dynamical_runs = true) :
    ((objective_pass cfg numTrials best_value st br be).state.returns = st.returns ++ br)
    ∧ ((objective_pass cfg numTrials best_value st br be).Gss_rew
        = compute_cvar cfg (st.returns ++ br) cfg.alpha)
    ∧ (st.Gs_rew = none →
        ((objective_pass cfg numTrials best_value st br be).increase_runs = true ↔
          (st.first_iteration = false
            ∨ compute_cvar cfg (st.returns ++ br) cfg.alpha > best_value)))
    ∧ (∀ g, st.Gs_rew = some g →
        ((objective_pass cfg numTrials best_value st br be).increase_runs = true ↔
          ((st.first_iteration = false
              ∨ compute_cvar cfg (st.returns ++ br) cfg.alpha > best_value)
            ∧ |g - compute_cvar cfg (st.returns ++ br) cfg.alpha|
                > cfg.approximation_threshold)))
    ∧ compute_cvar cfgEscalate (stSecondPass.returns ++ [8, 8]) cfgEscalate.alpha = 9
    ∧ (objective_pass cfgEscalate 1 10 stSecondPass [8, 8] [8, 8]).increase_runs = true
    ∧ (objective_pass cfgNoEscalate 1 10 stSecondPass [8, 8] [8, 8]).increase_runs = false := by
  have hcvar9 : compute_cvar cfgEscalate (stSecondPass.returns ++ [8, 8]) cfgEscalate.alpha
      = 9 := by
    show cvar_core "minimize" [10, 8, 8] (2 / 3) = 9
    norm_num [cvar_core, pyInt, listMean, List.insertionSort, List.orderedInsert,
      show (2 : Int).toNat = 2 from rfl]
  have hcvar9n : compute_cvar cfgNoEscalate (stSecondPass.returns ++ [8, 8]) cfgNoEscalate.alpha
      = 9 := by
    show cvar_core "minimize" [10, 8, 8] (2 / 3) = 9
    norm_num [cvar_core, pyInt, listMean, List.insertionSort, List.orderedInsert,
      show (2 : Int).toNat = 2 from rfl]
  refine ⟨rfl, rfl, ?_, ?_, hcvar9, ?_, ?_⟩
  · intro hGs
    exact objective_pass_inc_none_iff cfg numTrials best_value st br be hW hD hGs
  · intro g hGs
    exact objective_pass_inc_some_iff cfg numTrials best_value st br be hW hD g hGs
  · refine (objective_pass_inc_some_iff cfgEscalate 1 10 stSecondPass [8, 8] [8, 8]
      (by norm_num [cfgEscalate]) rfl 10 rfl).mpr ?_
    rw [hcvar9]
    exact ⟨Or.inl rfl, by norm_num [cfgEscalate]⟩
  · rcases hb : (objective_pass cfgNoEscalate 1 10 stSecondPass [8, 8] [8, 8]).increase_runs with _ | _
    · rfl
    · exfalso
      have h := (objective_pass_inc_some_iff cfgNoEscalate 1 10 stSecondPass [8, 8] [8, 8]
        (by norm_num [cfgNoEscalate]) rfl 10 rfl).mp hb
      rw [hcvar9n] at h
      have h2 := h.2
      norm_num [cfgNoEscalate] at h2

/-- Witness for C2 at the claim's concrete scenario. -/
theorem C2_escalation_witness :
    (cfgEscalate.warm_trials < 1 ∧ cfgEscalate.dynamical_runs = true)
    ∧ ((objective_pass cfgEscalate 1 10 stSecondPass [8, 8] [8, 8]).increase_runs = true ↔
        ((stSecondPass.first_iteration = false
            ∨ compute_cvar cfgEscalate (stSecondPass.returns ++ [8, 8]) cfgEscalate.alpha > 10)
          ∧ |10 - compute_cvar cfgEscalate (stSecondPass.returns ++ [8, 8]) cfgEscalate.alpha|
              > cfgEscalate.approximation_threshold)) := by
  refine ⟨⟨by norm_num [cfgEscalate], rfl⟩, ?_⟩
  obtain ⟨-, -, -, hiff, -, -, -⟩ :=
    C2_escalation cfgEscalate 1 10 stSecondPass [8, 8] [8, 8]
      (by norm_num [cfgEscalate]) rfl
  exact hiff 10 rfl

/-! ## C5: fault handling in the repetition loop -/

/-- Claim C5 counterexample: the claim states that a runtime fault raised
while constructing or running the agent scores the repetition `0.0/0.0`,
stops the batch, and is not propagated.  On the code, a fault raised by
`self.agent._run()` (which sits outside every try block) propagates out of
`objective` with nothing appended, and a fault raised while constructing
the agent leads to an uncaught `AttributeError` from the except block's
`self.agent.close()`; neither matches the claimed `Except.ok ([0], [0])`
outcome. -/
theorem C5_counterexample :
    objective_repeat [RepResult.runRaise] [] []
        = Except.error "exception raised by self.agent._run() outside any try block"
    ∧ objective_repeat [RepResult.runRaise] [] []
        ≠ Except.ok ([(0 : Rat)], [(0 : Rat)])
    ∧ objective_repeat [RepResult.constructRaise] [] []
        = Except.error "AttributeError raised by self.agent.close() in the except block"
    ∧ objective_repeat [RepResult.constructRaise] [] []
        ≠ Except.ok ([(0 : Rat)], [(0 : Rat)]) := by
  refine ⟨rfl, ?_, rfl, ?_⟩
  · intro h
    exact Except.noConfusion h
  · intro h
    exact Except.noConfusion h

/-- Claim C5 (amended): only a fault raised in the agent's learning step
(`self.agent._learn()`) contributes `0.0/0.0` for the repetition and
abandons the rest of the batch without propagating; a fault in agent
construction or in the evaluation run (`self.agent._run()`) propagates out
of `objective` uncaught, contributing nothing; a fault-free repetition
appends its scores and continues with the next seed. -/
theorem C5_learn_fault_scores_zero (rest : List RepResult) (returns effs : List Rat) :
    objective_repeat (RepResult.learnRaise :: rest) returns effs
        = Except.ok (returns ++ [0], effs ++ [0])
    ∧ objective_repeat (RepResult.runRaise :: rest) returns effs
        = Except.error "exception raised by self.agent._run() outside any try block"
    ∧ objective_repeat (RepResult.constructRaise :: rest) returns effs
        = Except.error "AttributeError raised by self.agent.close() in the except block"
    ∧ (∀ ret eff, objective_repeat (RepResult.ok ret eff :: rest) returns effs
        = objective_repeat rest (returns ++ [ret]) (effs ++ [eff])) :=
  ⟨rfl, rfl, rfl, fun _ _ => rfl⟩

/-! ## C6: termination of the GaussianProcess.train loop -/

theorem gp_train_loop_runs_out (lossAt : Nat → Rat) :
    ∀ (fuel i : Nat) (loss : Rat), loss < 99998999 → (∀ j, lossAt j < 99998999) →
      gp_train_loop lossAt 99999999 fuel i loss = i + fuel := by
  intro fuel
  induction fuel with
  | zero =>
      intro i loss _ _
      rfl
  | succ fuel ih =>
      intro i loss hl hB
      unfold gp_train_loop
      rw [if_pos]
      · rw [ih (i + 1) (lossAt i) (hB i) hB]
        omega
      · rw [abs_of_neg (by linarith)]
        linarith

/-- Claim C6 (code behaviour at the failing input): the claim states the
training loop of `GaussianProcess.train` stops as soon as the iteration
count reaches `max_iters` or consecutive training losses differ by at most
`1e-2`.  In the source, `last_loss` is initialized to `99999999` and never
updated inside the loop, so the convergence test compares each loss to the
constant sentinel: whenever every training loss stays below `99998999`
(any realistic loss), the loop always runs the full `max_iters` iterations,
even when consecutive losses are exactly equal. -/
theorem C6_train_loop_never_converges (lossAt : Nat → Rat) (n_train : Nat)
    (hB : ∀ j, lossAt j < 99998999) :
    gp_train_iterations lossAt n_train = n_train := by
  unfold gp_train_iterations
  rw [gp_train_loop_runs_out lossAt n_train 0 0 (by norm_num) hB]
  omega

/-- Witness for C6: constant training losses of `5` (consecutive difference
`0 ≤ 1e-2` from the second iteration on) with `n_train = 10`; the loop
still executes all ten iterations. -/
theorem C6_train_loop_never_converges_witness :
    (∀ j : Nat, (fun _ => (5 : Rat)) j < 99998999)
    ∧ gp_train_iterations (fun _ => (5 : Rat)) 10 = 10 :=
  ⟨fun _ => by norm_num,
   C6_train_loop_never_converges (fun _ => (5 : Rat)) 10 (fun _ => by norm_num)⟩

/-! ## C10: both CVaR summaries read only direction[0] -/

/-- The two-objective configuration with opposite directions used to
exhibit the behaviour: objectives `[performance, efficiency]` with
directions `[minimize, maximize]`. -/
def cfgTwoObjectives : HPOConfig :=
  ⟨["performance", "efficiency"], ["minimize", "maximize"], 1 / 5, 5, 0, true, 1 / 2⟩

/-- Claim C10 (implicit): every CVaR summary computed during a trial — over
returns and efficiencies alike — branches on `direction[0]` only, so with
directions `["minimize", "maximize"]` the efficiency CVaR is still computed
with the minimize branch: for efficiencies `[1,2,3,4,5]` at risk level 1/5
it evaluates to `5` (the minimize branch), not to the `1` the maximize
branch would produce. -/
theorem C10_direction_first_entry_only (cfg : HPOConfig) (d1 : String) (rest : List String)
    (hdir : cfg.direction = d1 :: rest) (returns effs : List Rat) :
    summarize_cvars cfg returns effs
        = (cvar_core d1 returns cfg.alpha, cvar_core d1 effs cfg.alpha)
    ∧ (summarize_cvars cfgTwoObjectives [1, 2, 3, 4, 5] [1, 2, 3, 4, 5]).2 = 5
    ∧ cvar_core "maximize" [1, 2, 3, 4, 5] (1 / 5) = 1
    ∧ (5 : Rat) ≠ 1 := by
  refine ⟨?_, ?_, ?_, by norm_num⟩
  · unfold summarize_cvars compute_cvar
    rw [hdir]
    rfl
  · show cvar_core (cfgTwoObjectives.direction.headD "") [1, 2, 3, 4, 5] cfgTwoObjectives.alpha
        = 5
    norm_num [cfgTwoObjectives, cvar_core, pyInt, listMean, List.insertionSort,
      List.orderedInsert, show (1 : Int).toNat = 1 from rfl]
  · norm_num [cvar_core, pyInt, listMean, List.insertionSort, List.orderedInsert,
      show (1 : Int).toNat = 1 from rfl]
    decide

/-- Witness for C10 at the two-objective configuration. -/
theorem C10_direction_first_entry_only_witness :
    (cfgTwoObjectives.direction = "minimize" :: ["maximize"])
    ∧ summarize_cvars cfgTwoObjectives [1, 2, 3, 4, 5] [1, 2, 3, 4, 5]
        = (cvar_core "minimize" [1, 2, 3, 4, 5] cfgTwoObjectives.alpha,
           cvar_core "minimize" [1, 2, 3, 4, 5] cfgTwoObjectives.alpha) :=
  ⟨rfl,
   (C10_direction_first_entry_only cfgTwoObjectives "minimize" ["maximize"] rfl
      [1, 2, 3, 4, 5] [1, 2, 3, 4, 5]).1⟩

/-! ## C7: GaussianProcessCollection.predict shape -/

/-- Claim C7: `GaussianProcessCollection.predict` over the `k` GPs of
`gp_list` (one per masked target dimension, in `target_mask` order) returns
the list of per-dimension means in `gp_list` order — a mean vector of
length `k` — together with the `k × k` matrix whose diagonal holds the
per-dimension scalar variances and whose off-diagonal entries are all
zero. -/
theorem C7_collection_predict {α : Type} (gp_list : List (α → Rat × Rat)) (x : α) :
    (collection_predict gp_list x).1 = gp_list.map (fun gp => (gp x).1)
    ∧ (collection_predict gp_list x).1.length = gp_list.length
    ∧ (∀ i : Fin gp_list.length,
        (collection_predict gp_list x).2 i i = ((gp_list.get i) x).2)
    ∧ (∀ i j : Fin gp_list.length, i ≠ j → (collection_predict gp_list x).2 i j = 0) :=
  ⟨rfl, by simp [collection_predict],
   fun i => Matrix.diagonal_apply_eq _ i,
   fun _ _ h => Matrix.diagonal_apply_ne _ h⟩

/-- A two-dimensional collection whose per-dimension GPs return the
constant posteriors (mean 1, variance 2) and (mean 3, variance 4). -/
def gpPairExample : List (Rat → Rat × Rat) :=
  [fun _ => (1, 2), fun _ => (3, 4)]

/-- Witness for C7 on a concrete two-GP collection. -/
theorem C7_collection_predict_witness :
    ((⟨0, by decide⟩ : Fin gpPairExample.length) ≠ (⟨1, by decide⟩ : Fin gpPairExample.length))
    ∧ (collection_predict gpPairExample 0).2 ⟨0, by decide⟩ ⟨1, by decide⟩ = 0
    ∧ (collection_predict gpPairExample 0).1 = [1, 3] :=
  ⟨by decide,
   (C7_collection_predict gpPairExample 0).2.2.2 ⟨0, by decide⟩ ⟨1, by decide⟩ (by decide),
   by rw [(C7_collection_predict gpPairExample 0).1]; rfl⟩

/-! ## C8: parallel-mode guard of GaussianProcessCollection.init_with_hyperparam -/

/-- Claim C8: a `GaussianProcessCollection` constructed in parallel
(batched) mode raises a hard error from the leading assert of
`init_with_hyperparam` before restoring any state; in non-parallel mode
the call proceeds and stacks the per-dimension caches. -/
theorem C8_parallel_load_guard {β : Type} (parallel : Bool) (gp_loads : List (β × β)) :
    (parallel = true →
      init_with_hyperparam parallel gp_loads
        = Except.error "Parallel GP not supported yet.")
    ∧ (parallel = false →
      init_with_hyperparam parallel gp_loads
        = Except.ok (gp_loads.map Prod.fst, gp_loads.map Prod.snd)) := by
  constructor <;> intro h <;> simp [init_with_hyperparam, h]

/-- Witness for C8 in both modes at a concrete load list. -/
theorem C8_parallel_load_guard_witness :
    (true = true) ∧ (false = false)
    ∧ init_with_hyperparam true [((1 : Rat), (2 : Rat))]
        = Except.error "Parallel GP not supported yet."
    ∧ init_with_hyperparam false [((1 : Rat), (2 : Rat))]
        = Except.ok ([(1 : Rat)], [(2 : Rat)]) :=
  ⟨rfl, rfl,
   (C8_parallel_load_guard true [((1 : Rat), (2 : Rat))]).1 rfl,
   (C8_parallel_load_guard false [((1 : Rat), (2 : Rat))]).2 rfl⟩

/-! ## C9: the float-branch perturbation generator stays in range -/

theorem shrink_step_right_bounds (hp maxI : Rat) (i : Nat) :
    ∀ (fuel : Nat) (dx p dx2 : Rat), shrink_step_right hp i maxI fuel dx = some (p, dx2) →
      0 ≤ dx → (hp ≤ p ∧ p ≤ maxI ∧ 0 ≤ dx2) := by
  intro fuel
  induction fuel with
  | zero =>
      intro dx p dx2 h hdx
      unfold shrink_step_right at h
      split at h
      · exact Option.noConfusion h
      · rename_i hc
        injection h with h2
        rw [Prod.mk.injEq] at h2
        obtain ⟨rfl, rfl⟩ := h2
        have hmul : (0 : Rat) ≤ (i : Rat) * dx := mul_nonneg (Nat.cast_nonneg i) hdx
        exact ⟨by linarith, not_lt.mp hc, hdx⟩
  | succ fuel ih =>
      intro dx p dx2 h hdx
      unfold shrink_step_right at h
      split at h
      · exact ih (dx / 10) p dx2 h (by positivity)
      · rename_i hc
        injection h with h2
        rw [Prod.mk.injEq] at h2
        obtain ⟨rfl, rfl⟩ := h2
        have hmul : (0 : Rat) ≤ (i : Rat) * dx := mul_nonneg (Nat.cast_nonneg i) hdx
        exact ⟨by linarith, not_lt.mp hc, hdx⟩

theorem shrink_step_left_bounds (hp minI : Rat) (i : Nat) :
    ∀ (fuel : Nat) (dx p dx2 : Rat), shrink_step_left hp i minI fuel dx = some (p, dx2) →
      0 ≤ dx → (minI ≤ p ∧ p ≤ hp ∧ 0 ≤ dx2) := by
  intro fuel
  induction fuel with
  | zero =>
      intro dx p dx2 h hdx
      unfold shrink_step_left at h
      split at h
      · exact Option.noConfusion h
      · rename_i hc
        injection h with h2
        rw [Prod.mk.injEq] at h2
        obtain ⟨rfl, rfl⟩ := h2
        have hmul : (0 : Rat) ≤ ((i : Rat) + 1) * dx :=
          mul_nonneg (by positivity) hdx
        exact ⟨not_lt.mp hc, by linarith, hdx⟩
  | succ fuel ih =>
      intro dx p dx2 h hdx
      unfold shrink_step_left at h
      split at h
      · exact ih (dx / 10) p dx2 h (by positivity)
      · rename_i hc
        injection h with h2
        rw [Prod.mk.injEq] at h2
        obtain ⟨rfl, rfl⟩ := h2
        have hmul : (0 : Rat) ≤ ((i : Rat) + 1) * dx :=
          mul_nonneg (by positivity) hdx
        exact ⟨not_lt.mp hc, by linarith, hdx⟩

theorem perturb_right_from_spec (hp maxI : Rat) (fuel : Nat) :
    ∀ (count i : Nat) (dx : Rat) (ps : List Rat) (dx2 : Rat),
      perturb_right_from hp maxI fuel i count dx = some (ps, dx2) → 0 ≤ dx →
      (ps.length = count ∧ 0 ≤ dx2 ∧ ∀ p ∈ ps, hp ≤ p ∧ p ≤ maxI) := by
  intro count
  induction count with
  | zero =>
      intro i dx ps dx2 h hdx
      unfold perturb_right_from at h
      injection h with h2
      rw [Prod.mk.injEq] at h2
      obtain ⟨rfl, rfl⟩ := h2
      exact ⟨rfl, hdx, by simp⟩
  | succ count ih =>
      intro i dx ps dx2 h hdx
      unfold perturb_right_from at h
      split at h
      · exact Option.noConfusion h
      · rename_i p dxm heq
        split at h
        · exact Option.noConfusion h
        · rename_i ps2 dx3 heq2
          injection h with h2
          rw [Prod.mk.injEq] at h2
          obtain ⟨rfl, rfl⟩ := h2
          have hb := shrink_step_right_bounds hp maxI i fuel dx p dxm heq hdx
          have hrec := ih (i + 1) dxm ps2 dx3 heq2 hb.2.2
          refine ⟨by simp [hrec.1], hrec.2.1, ?_⟩
          intro q hq
          rcases List.mem_cons.mp hq with rfl | hq2
          · exact ⟨hb.1, hb.2.1⟩
          · exact hrec.2.2 q hq2

theorem perturb_left_from_spec (hp minI : Rat) (fuel : Nat) :
    ∀ (count i : Nat) (dx : Rat) (ps : List Rat) (dx2 : Rat),
      perturb_left_from hp minI fuel i count dx = some (ps, dx2) → 0 ≤ dx →
      (ps.length = count ∧ 0 ≤ dx2 ∧ ∀ p ∈ ps, minI ≤ p ∧ p ≤ hp) := by
  intro count
  induction count with
  | zero =>
      intro i dx ps dx2 h hdx
      unfold perturb_left_from at h
      injection h with h2
      rw [Prod.mk.injEq] at h2
      obtain ⟨rfl, rfl⟩ := h2
      exact ⟨rfl, hdx, by simp⟩
  | succ count ih =>
      intro i dx ps dx2 h hdx
      unfold perturb_left_from at h
      split at h
      · exact Option.noConfusion h
      · rename_i p dxm heq
        split at h
        · exact Option.noConfusion h
        · rename_i ps2 dx3 heq2
          injection h with h2
          rw [Prod.mk.injEq] at h2
          obtain ⟨rfl, rfl⟩ := h2
          have hb := shrink_step_left_bounds hp minI i fuel dx p dxm heq hdx
          have hrec := ih (i + 1) dxm ps2 dx3 heq2 hb.2.2
          refine ⟨by simp [hrec.1], hrec.2.1, ?_⟩
          intro q hq
          rcases List.mem_cons.mp hq with rfl | hq2
          · exact ⟨hb.1, hb.2.1⟩
          · exact hrec.2.2 q hq2

/-- Claim C9 counterexample: the claim describes the out-of-range shrink as
"the step is recursively halved".  The source divides the step by ten
instead.  For interval `[0, 1]`, chosen value `0.95`, `divisor = 1`
(initial step `0.1`), `side_perturb_num = 1`: the candidate `1.05` is out
of range, the source shrinks the step to `0.01` and emits
`[0.95, 0.96, 0.94]`, while the claim's halving rule would shrink it to
`0.05` and emit `[0.95, 1, 0.9]`. -/
theorem C9_counterexample :
    perturb_hps_float (19 / 20) 0 1 1 1 20 = some [19 / 20, 24 / 25, 47 / 50]
    ∧ spec_perturb_hps_float_halved (19 / 20) 0 1 1 1 20 = some [19 / 20, 1, 9 / 10]
    ∧ ¬(perturb_hps_float (19 / 20) 0 1 1 1 20
        = spec_perturb_hps_float_halved (19 / 20) 0 1 1 1 20) := by
  have h1 : perturb_hps_float (19 / 20) 0 1 1 1 20 = some [19 / 20, 24 / 25, 47 / 50] := by
    norm_num [perturb_hps_float, perturb_right_from, perturb_left_from,
      shrink_step_right, shrink_step_left]
  have h2 : spec_perturb_hps_float_halved (19 / 20) 0 1 1 1 20
      = some [19 / 20, 1, 9 / 10] := by
    norm_num [spec_perturb_hps_float_halved, spec_perturb_right_halved,
      spec_perturb_left_halved, spec_shrink_right_halved, spec_shrink_left_halved]
  refine ⟨h1, h2, ?_⟩
  rw [h1, h2]
  intro h
  injection h with h3
  rw [List.cons.injEq] at h3
  have h4 := h3.2
  rw [List.cons.injEq] at h4
  have h5 : (24 / 25 : Rat) = 1 := h4.1
  norm_num at h5

/-- Claim C9 (amended): for every scalar float hyperparameter with bounded
admissible interval `[minI, maxI]` and chosen value in the interval, the
generator emits `side_perturb_num` values on each side of the chosen value
(the right loop also re-emits the chosen value itself, `2n + 1` emissions
in total) and every emitted value lies inside `[minI, maxI]`: a candidate
falling outside the interval has its step recursively divided by ten (not
halved) until it is valid, so no out-of-range value is ever emitted.  In
particular for `[0, 1]`, chosen value `0.9`, `side_perturb_num = 2` and
`divisor = 10` the emitted batch is `[0.9, 0.91, 0.92, 0.89, 0.88]`, all
inside `[0, 1]`. -/
theorem C9_perturb_in_range (hp minI maxI divisor : Rat) (n fuel : Nat) (vals : List Rat)
    (hlo : minI ≤ hp) (hhi : hp ≤ maxI) (hdiv : 0 ≤ divisor)
    (hsome : perturb_hps_float hp minI maxI divisor n fuel = some vals) :
    vals.length = 2 * n + 1
    ∧ (∀ v ∈ vals, minI ≤ v ∧ v ≤ maxI)
    ∧ perturb_hps_float (9 / 10) 0 1 10 2 20
        = some [9 / 10, 91 / 100, 23 / 25, 89 / 100, 22 / 25] := by
  have hdx0 : 0 ≤ (maxI - minI) / divisor / 10 :=
    div_nonneg (div_nonneg (sub_nonneg.mpr (hlo.trans hhi)) hdiv) (by norm_num)
  simp only [perturb_hps_float] at hsome
  split at hsome
  · exact Option.noConfusion hsome
  · rename_i rights dx2 heq1
    split at hsome
    · exact Option.noConfusion hsome
    · rename_i lefts dx3 heq2
      injection hsome with h2
      subst h2
      have hr := perturb_right_from_spec hp maxI fuel (n + 1) 0
        ((maxI - minI) / divisor / 10) rights dx2 heq1 hdx0
      have hl := perturb_left_from_spec hp minI fuel n 0 dx2 lefts dx3 heq2 hr.2.1
      refine ⟨?_, ?_, ?_⟩
      · rw [List.length_append, hr.1, hl.1]
        omega
      · intro v hv
        rcases List.mem_append.mp hv with hv1 | hv2
        · have := hr.2.2 v hv1
          exact ⟨hlo.trans this.1, this.2⟩
        · have := hl.2.2 v hv2
          exact ⟨this.1, this.2.trans hhi⟩
      · norm_num [perturb_hps_float, perturb_right_from, perturb_left_from,
          shrink_step_right, shrink_step_left]

/-- Witness for C9 (amended) at the claim's concrete instance: interval
`[0, 1]`, chosen value `0.9`, `side_perturb_num = 2`, `divisor = 10`. -/
theorem C9_perturb_in_range_witness :
    ((0 : Rat) ≤ 9 / 10 ∧ (9 / 10 : Rat) ≤ 1 ∧ (0 : Rat) ≤ 10)
    ∧ ([(9 : Rat) / 10, 91 / 100, 23 / 25, 89 / 100, 22 / 25].length = 2 * 2 + 1
        ∧ (∀ v ∈ [(9 : Rat) / 10, 91 / 100, 23 / 25, 89 / 100, 22 / 25],
            (0 : Rat) ≤ v ∧ v ≤ 1)) := by
  have hsome : perturb_hps_float (9 / 10) 0 1 10 2 20
      = some [9 / 10, 91 / 100, 23 / 25, 89 / 100, 22 / 25] := by
    norm_num [perturb_hps_float, perturb_right_from, perturb_left_from,
      shrink_step_right, shrink_step_left]
  have h := C9_perturb_in_range (9 / 10) 0 1 10 2 20
    [9 / 10, 91 / 100, 23 / 25, 89 / 100, 22 / 25]
    (by norm_num) (by norm_num) (by norm_num) hsome
  exact ⟨⟨by norm_num, by norm_num, by norm_num⟩, h.1, h.2.1⟩

/-! ## C3: kernel formulas and algebraic properties -/

/-- Claim C3: for all equal-dimension vectors `x`, `z` and positive
length-scales `ell` and output-scale `sf2`, `covSEard` returns
`sf2 * exp(-0.5 * Σ ((x i - z i) / ell i)^2)` and `covMatern52ard` returns
`sf2 * (1 + sqrt 5 * r + 5/3 * r^2) * exp(-sqrt 5 * r)` with
`r = sqrt (Σ ((x i - z i) / ell i)^2)`; both kernels are non-negative,
symmetric in their two vector arguments, and equal `sf2` exactly when
`x = z`. -/
theorem C3_kernels (d : Nat) (x z ell : Fin d → ℝ) (sf2 : ℝ)
    (hell : ∀ i, 0 < ell i) (hsf2 : 0 < sf2) :
    covSEard d x z ell sf2
        = sf2 * Real.exp (-(1 / 2) * ∑ i, ((x i - z i) / ell i) ^ 2)
    ∧ covMatern52ard d x z ell sf2
        = sf2 * (1 + Real.sqrt 5 * Real.sqrt (∑ i, ((x i - z i) / ell i) ^ 2)
            + 5 / 3 * Real.sqrt (∑ i, ((x i - z i) / ell i) ^ 2) ^ 2)
          * Real.exp (-Real.sqrt 5 * Real.sqrt (∑ i, ((x i - z i) / ell i) ^ 2))
    ∧ 0 ≤ covSEard d x z ell sf2
    ∧ 0 ≤ covMatern52ard d x z ell sf2
    ∧ covSEard d x z ell sf2 = covSEard d z x ell sf2
    ∧ covMatern52ard d x z ell sf2 = covMatern52ard d z x ell sf2
    ∧ (x = z → covSEard d x z ell sf2 = sf2 ∧ covMatern52ard d x z ell sf2 = sf2) := by
  have hsum : (∑ i, (x i - z i) ^ 2 / ell i ^ 2) = ∑ i, ((x i - z i) / ell i) ^ 2 :=
    Finset.sum_congr rfl (fun i _ => (div_pow _ _ 2).symm)
  have hsym : (∑ i, (x i - z i) ^ 2 / ell i ^ 2) = ∑ i, (z i - x i) ^ 2 / ell i ^ 2 :=
    Finset.sum_congr rfl (fun i _ => by ring)
  have hfac : 0 ≤ 1 + Real.sqrt 5 * Real.sqrt (∑ i, (x i - z i) ^ 2 / ell i ^ 2)
      + 5 / 3 * Real.sqrt (∑ i, (x i - z i) ^ 2 / ell i ^ 2) ^ 2 := by
    positivity
  refine ⟨?_, ?_, ?_, ?_, ?_, ?_, ?_⟩
  · show sf2 * Real.exp (-(1 / 2) * ∑ i, (x i - z i) ^ 2 / ell i ^ 2) = _
    rw [hsum]
  · show sf2 * (1 + Real.sqrt 5 * Real.sqrt (∑ i, (x i - z i) ^ 2 / ell i ^ 2)
          + 5 / 3 * Real.sqrt (∑ i, (x i - z i) ^ 2 / ell i ^ 2) ^ 2)
        * Real.exp (-Real.sqrt 5 * Real.sqrt (∑ i, (x i - z i) ^ 2 / ell i ^ 2)) = _
    rw [hsum]
  · exact mul_nonneg hsf2.le (Real.exp_pos _).le
  · exact mul_nonneg (mul_nonneg hsf2.le hfac) (Real.exp_pos _).le
  · show sf2 * Real.exp (-(1 / 2) * ∑ i, (x i - z i) ^ 2 / ell i ^ 2)
        = sf2 * Real.exp (-(1 / 2) * ∑ i, (z i - x i) ^ 2 / ell i ^ 2)
    rw [hsym]
  · show sf2 * (1 + Real.sqrt 5 * Real.sqrt (∑ i, (x i - z i) ^ 2 / ell i ^ 2)
          + 5 / 3 * Real.sqrt (∑ i, (x i - z i) ^ 2 / ell i ^ 2) ^ 2)
        * Real.exp (-Real.sqrt 5 * Real.sqrt (∑ i, (x i - z i) ^ 2 / ell i ^ 2))
      = sf2 * (1 + Real.sqrt 5 * Real.sqrt (∑ i, (z i - x i) ^ 2 / ell i ^ 2)
          + 5 / 3 * Real.sqrt (∑ i, (z i - x i) ^ 2 / ell i ^ 2) ^ 2)
        * Real.exp (-Real.sqrt 5 * Real.sqrt (∑ i, (z i - x i) ^ 2 / ell i ^ 2))
    rw [hsym]
  · intro hxz
    subst hxz
    have h0 : (∑ i, (x i - x i) ^ 2 / ell i ^ 2) = 0 := by simp
    constructor
    · show sf2 * Real.exp (-(1 / 2) * ∑ i, (x i - x i) ^ 2 / ell i ^ 2) = sf2
      rw [h0]
      simp
    · show sf2 * (1 + Real.sqrt 5 * Real.sqrt (∑ i, (x i - x i) ^ 2 / ell i ^ 2)
            + 5 / 3 * Real.sqrt (∑ i, (x i - x i) ^ 2 / ell i ^ 2) ^ 2)
          * Real.exp (-Real.sqrt 5 * Real.sqrt (∑ i, (x i - x i) ^ 2 / ell i ^ 2)) = sf2
      rw [h0]
      simp

/-- Witness for C3 at dimension 1, `x = z = 0`, unit length-scale and unit
output-scale. -/
theorem C3_kernels_witness :
    ((∀ i : Fin 1, (0 : ℝ) < (fun _ => (1 : ℝ)) i) ∧ (0 : ℝ) < 1)
    ∧ covSEard 1 (fun _ => 0) (fun _ => 0) (fun _ => 1) 1 = 1
    ∧ covMatern52ard 1 (fun _ => 0) (fun _ => 0) (fun _ => 1) 1 = 1 := by
  have h := C3_kernels 1 (fun _ => 0) (fun _ => 0) (fun _ => 1) 1
    (fun _ => by norm_num) (by norm_num)
  have hxz := h.2.2.2.2.2.2 rfl
  exact ⟨⟨fun _ => by norm_num, by norm_num⟩, hxz.1, hxz.2⟩

/-! ## C4: the exported closed-form prediction function -/

/-- Claim C4: for a trained single-output GP, the exported closed-form
prediction function maps every query `z` to exactly
`K(z, X_train) · M · y_train`, where `K` is the configured kernel evaluated
with the trained length-scales and output-scale and `M` abstracts the
cached inverse `(K + sigma I)⁻¹` the source passes in; consequently,
evaluated at each training input it reproduces exactly (the real-arithmetic
sharpening of "within numerical tolerance") the cached-inverse-path
posterior mean `(K(X, X) · M · y_train) t` at that point. -/
theorem C4_casadi_closed_form (kt : KernelType) (n d : Nat)
    (X : Fin n → Fin d → ℝ) (y : Fin n → ℝ) (ell : Fin d → ℝ) (sf2 : ℝ)
    (M : Matrix (Fin n) (Fin n) ℝ) :
    (∀ z, make_casadi_prediction_func kt n d X y ell sf2 M z
        = Matrix.dotProduct (fun i => kernelFn kt d z (X i) ell sf2) (Matrix.mulVec M y))
    ∧ (∀ t, make_casadi_prediction_func kt n d X y ell sf2 M (X t)
        = cached_posterior_mean_at_train kt n d X y ell sf2 M t) := by
  constructor
  · intro z
    exact (Matrix.dotProduct_mulVec _ M y).symm
  · intro t
    simp only [make_casadi_prediction_func, cached_posterior_mean_at_train, Matrix.mulVec,
      Matrix.vecMul, Matrix.dotProduct, Matrix.mul_apply, kernelMatrix, Matrix.of_apply]

end SafeControlGym
